import Mathlib

/-!
Verification development for the oznak measurement-aggregation pipeline.

The definitions below are shallow embeddings of the Python sources:
  * `src/src/query/builder.py`           (filter parsing, query building)
  * `src/src/services/multi_database_fetcher.py`  (concurrent multi-source fetch)
  * `src/modules/db_connector.py`        (combination / deduplication engine)
  * `src/modules/analyzer.py`            (quality / capability analyzer)

Conventions used throughout:
  * Python exceptions are modelled with `Except String`; the string is the
    exception message from the source.
  * Python `None` / optional arguments are modelled with dedicated inductive
    types (`PyLimit`) or `Option`.
  * numpy float arithmetic is idealised as exact arithmetic over `ℚ`.
    Where the source compares `np.std(data)` (a square root) against
    thresholds, the comparison is encoded as an exact decidable predicate on
    the variance, and bridge lemmas relate the encoding to `Real.sqrt`.
-/

deriving instance DecidableEq for Except

namespace Oznak

/-! ## Query builder (`src/src/query/builder.py`) -/

/-- One character of the identifier regex body `[a-zA-Z0-9_]`. -/
def isIdentChar (c : Char) : Bool := c.isAlpha || c.isDigit || c = '_'

/-- First character of the identifier regex `[a-zA-Z_]`. -/
def isIdentStart (c : Char) : Bool := c.isAlpha || c = '_'

/-- Embeds `re.match(r"^[a-zA-Z_][a-zA-Z0-9_]*$", s)` from `builder.py`. -/
def validIdent (s : String) : Bool :=
  match s.toList with
  | [] => false
  | c :: cs => isIdentStart c && cs.all isIdentChar

/-- Helper for `pySplitWs`: words of a character list, splitting on
whitespace runs; `acc` holds the current word reversed. -/
def wordsAux : List Char → List Char → List (List Char)
  | [], acc => if acc.isEmpty then [] else [acc.reverse]
  | c :: cs, acc =>
    if c.isWhitespace then
      if acc.isEmpty then wordsAux cs [] else acc.reverse :: wordsAux cs []
    else
      wordsAux cs (c :: acc)

/-- Python `str.split()` with no argument: split on whitespace runs,
dropping empty pieces. -/
def pySplitWs (s : String) : List String :=
  (wordsAux s.toList []).map String.mk

/-- Python `str.upper()` (operators here are ASCII). -/
def pyUpper (s : String) : String := String.mk (s.toList.map Char.toUpper)

/-- Python `" ".join(parts)` / `",".join(parts)`. -/
def pyJoin (sep : String) : List String → String
  | [] => ""
  | [x] => x
  | x :: y :: t => x ++ sep ++ pyJoin sep (y :: t)

/-- Python `str.strip()`: remove leading and trailing whitespace. -/
def pyStrip (s : String) : String :=
  String.mk (((s.toList.dropWhile Char.isWhitespace).reverse.dropWhile
      Char.isWhitespace).reverse)

/-- Helper for `pySplitOn`: split a character list at every occurrence of
`sep`, keeping empty pieces (Python `str.split(sep)` semantics). -/
def splitOnCharAux (sep : Char) : List Char → List (List Char)
  | [] => [[]]
  | c :: cs =>
    if c = sep then [] :: splitOnCharAux sep cs
    else
      match splitOnCharAux sep cs with
      | [] => [[c]]
      | w :: ws => (c :: w) :: ws

/-- Python `value.split(',')` (single-character separator, empties kept). -/
def pySplitOn (sep : Char) (s : String) : List String :=
  (splitOnCharAux sep s.toList).map String.mk

/-- The operator allow-list of `parse_filter_string`. -/
def allowedOperators : List String :=
  ["=", "!=", "<>", "<", ">", "<=", ">=",
   "LIKE", "NOT LIKE", "IN", "NOT IN", "IS", "IS NOT"]

/-- Embedding of `parse_filter_string` from `builder.py`: split the filter string on
whitespace; fewer than 3 tokens is an error; the first token is the column
(validated by the identifier regex), the second the operator (upper-cased and
checked against the allow-list), the rest re-joined with single spaces is the
value. -/
def parse_filter_string (filterStr : String) : Except String (String × String × String) :=
  match pySplitWs filterStr with
  | column :: opTok :: v0 :: vrest =>
    let operator := pyUpper opTok
    let value := pyJoin " " (v0 :: vrest)
    if !validIdent column then
      .error ("Invalid column name: " ++ column)
    else if !allowedOperators.contains operator then
      .error ("Invalid operator: " ++ operator)
    else
      .ok (column, operator, value)
  | _ => .error ("Invalid filter format: " ++ filterStr)

/-- The `for v in values:` loop of the `IN`/`NOT IN` branch of `build_query`:
for each comma-split element, allocate `param_<counter>` and bind the element;
returns the placeholder list (each `:param_i`), the parameter bindings in
order, and the counter after the loop. -/
def inPlaceholders (counter : Nat) : List String → List String × List (String × String) × Nat
  | [] => ([], [], counter)
  | v :: vs =>
    let p := "param_" ++ toString counter
    let (phs, ps, c) := inPlaceholders (counter + 1) vs
    ((":" ++ p) :: phs, (p, v) :: ps, c)

/-- One iteration of the `for filter_str in filters:` loop body of
`build_query`, for an already-parsed filter: produce the WHERE-condition text,
the parameter bindings it adds, and the updated parameter counter. -/
def processFilter (counter : Nat) (column operator value : String) :
    String × List (String × String) × Nat :=
  if operator = "LIKE" ∨ operator = "NOT LIKE" then
    let p := "param_" ++ toString counter
    ("`" ++ column ++ "` " ++ operator ++ " " ++ (":" ++ p), [(p, value)], counter + 1)
  else if operator = "IN" ∨ operator = "NOT IN" then
    let values := (pySplitOn ',' value).map pyStrip
    let r := inPlaceholders counter values
    ("`" ++ column ++ "` " ++ operator ++ " (" ++ pyJoin "," r.1 ++ ")", r.2.1, r.2.2)
  else if operator = "IS" ∨ operator = "IS NOT" then
    ("`" ++ column ++ "` " ++ operator ++ " " ++ value, [], counter)
  else
    let p := "param_" ++ toString counter
    ("`" ++ column ++ "` " ++ operator ++ " " ++ (":" ++ p), [(p, value)], counter + 1)

/-- The whole filter loop of `build_query`: parse each filter string and
accumulate WHERE-conditions and parameters, threading the counter. -/
def buildConditions (counter : Nat) :
    List String → Except String (List String × List (String × String) × Nat)
  | [] => .ok ([], [], counter)
  | f :: fs =>
    match parse_filter_string f with
    | .error e => .error e
    | .ok (column, operator, value) =>
      let r := processFilter counter column operator value
      match buildConditions r.2.2 fs with
      | .error e => .error e
      | .ok (conds, ps2, c2) => .ok (r.1 :: conds, r.2.1 ++ ps2, c2)

/-- The `limit` argument of `build_query`.  Python's default is `None`; the
code first tests Python truthiness (`if limit:`) and only then
`isinstance(limit, int)`, so the model keeps the dynamic type. -/
inductive PyLimit where
  | none
  | int (n : ℤ)
  | float (q : ℚ)
  | str (s : String)
deriving DecidableEq

/-- Python truthiness of the `limit` value (`if limit:`). -/
def PyLimit.truthy : PyLimit → Bool
  | .none => false
  | .int n => n ≠ 0
  | .float q => q ≠ 0
  | .str s => s ≠ ""

/-- The `base_query` variable of `build_query`: `SELECT * FROM` the quoted
table, plus a WHERE clause joining the conditions with `" AND "` when there
are any. -/
def baseQuery (table : String) (conds : List String) : String :=
  if conds.isEmpty then "SELECT * FROM " ++ ("`" ++ table ++ "`")
  else "SELECT * FROM " ++ ("`" ++ table ++ "`") ++ " WHERE " ++ pyJoin " AND " conds

/-- Embedding of `build_query(table, filters, limit=None, date_column="TimeStamp")` from
`builder.py`.  Validates `table` and `date_column` against the identifier
regex, processes the filters, joins conditions with `" AND "`, and appends
`ORDER BY <date_column> DESC LIMIT <n>` for a truthy positive integer limit;
a truthy limit that is not a positive `int` raises `ValueError`. -/
def build_query (table : String) (filters : List String) (limit : PyLimit)
    (date_column : String) : Except String (String × List (String × String)) :=
  if !validIdent table then
    .error ("Invalid table name: " ++ table)
  else if !validIdent date_column then
    .error ("Invalid date column name: " ++ date_column)
  else
    match buildConditions 0 filters with
    | .error e => .error e
    | .ok (conds, params, _) =>
      let base := baseQuery table conds
      if limit.truthy then
        match limit with
        | .int n =>
          if n ≤ 0 then .error "LIMIT must be a positive integer"
          else .ok (base ++ " ORDER BY " ++ ("`" ++ date_column ++ "`") ++ " DESC LIMIT "
                      ++ toString n, params)
        | _ => .error "LIMIT must be a positive integer"
      else
        .ok (base, params)

/-- Predicate stating that `p` occurs as a contiguous substring of `s`. -/
def occursIn (p s : String) : Prop := ∃ a b, s = a ++ p ++ b

/-- Two filter strings have the same shape: they parse to the same column and
operator, with the same number of comma-split elements when the operator is
`IN`/`NOT IN`, and the very same value when the operator is `IS`/`IS NOT`
(the one path whose value is inlined into the query text). -/
def sameShape (f g : String) : Prop :=
  ∃ col op v w,
    parse_filter_string f = .ok (col, op, v) ∧
    parse_filter_string g = .ok (col, op, w) ∧
    ((op = "IN" ∨ op = "NOT IN") →
      (pySplitOn ',' v).length = (pySplitOn ',' w).length) ∧
    ((op = "IS" ∨ op = "IS NOT") → v = w)

/-- The text appended to the base query by the limit handling of
`build_query` (empty when the limit is falsy or the call errors). -/
def limitSuffix (limit : PyLimit) (dcol : String) : String :=
  match limit with
  | .int n =>
    if 0 < n then " ORDER BY " ++ ("`" ++ dcol ++ "`") ++ " DESC LIMIT " ++ toString n
    else ""
  | _ => ""

/-! ## Combination / dedup engine (`src/modules/db_connector.py`) -/

/-- A cell value of a dataframe.  `null` models pandas `NaN`/`None`; pandas
`drop_duplicates` treats `NaN` as a duplicate of `NaN`, which the model's
decidable equality on `Cell` reproduces. -/
inductive Cell where
  | null
  | str (s : String)
  | num (q : ℚ)
deriving DecidableEq

/-- A dataframe row: association list from column name to cell value. -/
abbrev Row : Type := List (String × Cell)

/-- A dataframe: its column list and its rows. -/
structure DataFrame where
  cols : List String
  rows : List Row
deriving DecidableEq

/-- Lookup `row[col]`: first binding of the column in the row, `none` when absent
(pandas fills `NaN` for columns a source frame lacks). -/
def rowValue (r : Row) (col : String) : Option Cell :=
  (r.find? (fun p => p.1 == col)).map (fun p => p.2)

/-- Embeds `pd.concat(frames, ignore_index=True)`: rows concatenated in order; the
column set is the union of the frames' columns. -/
def concatFrames (frames : List DataFrame) : DataFrame :=
  { cols := (frames.map DataFrame.cols).flatten,
    rows := (frames.map DataFrame.rows).flatten }

/-- Helper for `dropDupKeepFirst`: `seen` is the list of key values already
kept; a row is kept iff its key has not been seen yet. -/
def dropDupKeepFirstAux (key : Row → Option Cell) (seen : List (Option Cell)) :
    List Row → List Row
  | [] => []
  | r :: rs =>
    if key r ∈ seen then dropDupKeepFirstAux key seen rs
    else r :: dropDupKeepFirstAux key (key r :: seen) rs

/-- pandas `drop_duplicates(subset=[unique_id_column], keep='first')`:
keep the first row of every key group, preserving order. -/
def dropDupKeepFirst (key : Row → Option Cell) (rows : List Row) : List Row :=
  dropDupKeepFirstAux key [] rows

/-- pandas `drop_duplicates(subset=[unique_id_column], keep='last')`:
keep a row iff no later row has the same key, preserving order. -/
def dropDupKeepLast (key : Row → Option Cell) : List Row → List Row
  | [] => []
  | r :: rs =>
    if key r ∈ rs.map key then dropDupKeepLast key rs
    else r :: dropDupKeepLast key rs

/-- Number of distinct unique-identifier values among the rows (the pandas
`NaN` values collapse to the single key `none`, exactly as
`drop_duplicates` groups them). -/
def distinctKeyCount (key : Row → Option Cell) (rows : List Row) : Nat :=
  ((rows.map key).dedup).length

/-- Outcome of the deduplication step of `_combine_all_production_lines`:
the surviving rows, the strategy log message that was printed, and the
`deduplication_info` metadata recorded in the session
(`db_connector.py` lines 196–211). -/
structure CombineResult where
  outRows : List Row
  appliedMessage : Option String
  recordedStrategy : String
  recordedTimestampColumn : Option String
deriving DecidableEq

/-- The deduplication step of `_combine_all_production_lines`
(`db_connector.py` lines 156–211).  `sortRows` stands for
`combined_df.sort_values(timestamp_column)`: pandas' default sort kind is an
unstable quicksort, so the source fixes only that the result is some
reordering of the rows ordered by the timestamp column; the engine is
therefore parameterised over it.  The recorded metadata takes `strategy`
from the *requested* `merge_strategy` and `timestamp_column` from the
configuration whenever the requested strategy is `latest_wins`. -/
def combineDedup (sortRows : List Row → List Row)
    (mergeStrategy uidCol tsCol : String) (combined : DataFrame) : CombineResult :=
  if uidCol ∈ combined.cols then
    if mergeStrategy = "latest_wins" ∧ tsCol ∈ combined.cols then
      { outRows := dropDupKeepLast (fun r => rowValue r uidCol) (sortRows combined.rows),
        appliedMessage := some ("Applied 'latest_wins' strategy using " ++ tsCol),
        recordedStrategy := mergeStrategy,
        recordedTimestampColumn := if mergeStrategy = "latest_wins" then some tsCol else none }
    else
      { outRows := dropDupKeepFirst (fun r => rowValue r uidCol) combined.rows,
        appliedMessage := some "Applied 'first occurrence' deduplication strategy",
        recordedStrategy := mergeStrategy,
        recordedTimestampColumn := if mergeStrategy = "latest_wins" then some tsCol else none }
  else
    { outRows := combined.rows,
      appliedMessage := none,
      recordedStrategy := mergeStrategy,
      recordedTimestampColumn := if mergeStrategy = "latest_wins" then some tsCol else none }

/-! ## Concurrent multi-source fetch (`src/src/services/multi_database_fetcher.py`) -/

/-- The external collaborators `_fetch_single_database` relies on:
engine resolution (`DBManager.get_engine`), the per-database `table` entry of
`DBManager.cfg`, and `fetch_data` (which itself returns an empty frame on
query errors).  Failures raise, modelled by `Except`. -/
structure DBEnv where
  getEngine : String → Except String Unit
  cfgTable : String → Except String String
  fetchData : String → String → List (String × String) → DataFrame

/-- The number of positional parameters `build_query` declares:
`(table, filters, limit, date_column)`. -/
def buildQueryParamCount : Nat := 4

/-- The call `build_query(table, filters, limit, date_column, columns)` as
written on line 20 of `multi_database_fetcher.py`: FIVE positional
arguments.  The call dispatches to `build_query` only if that function
accepts five positional parameters; since it declares
`buildQueryParamCount = 4`, Python raises `TypeError` at call time. -/
def build_query_call5 (table : String) (filters : List String) (limit : PyLimit)
    (date_column : String) (_columns : Option (List String)) :
    Except String (String × List (String × String)) :=
  if 5 ≤ buildQueryParamCount then build_query table filters limit date_column
  else .error "build_query() takes from 2 to 4 positional arguments but 5 were given"

/-- Embedding of `_fetch_single_database` from `multi_database_fetcher.py`: resolve the
engine, look up the configured table, build the query (five positional
arguments), execute it, and tag the resulting rows with a
`source_database` column; the surrounding `try`/`except` turns every
failure into `None`, and an empty result is also returned as `None`. -/
def _fetch_single_database (env : DBEnv) (database : String) (filters : List String)
    (limit : PyLimit) (date_column : String) (columns : Option (List String)) :
    Option DataFrame :=
  match env.getEngine database with
  | .error _ => none
  | .ok _ =>
    match env.cfgTable database with
    | .error _ => none
    | .ok table =>
      match build_query_call5 table filters limit date_column columns with
      | .error _ => none
      | .ok qp =>
        let df := env.fetchData database qp.1 qp.2
        if df.rows.isEmpty then none
        else
          some { cols := df.cols ++ ["source_database"],
                 rows := df.rows.map (fun r => r ++ [("source_database", Cell.str database)]) }

/-- Embedding of `MultiDatabaseFetcher.fetch`: one unit of work per database; the frames
of the units that completed with data are collected (the source does not fix
completion order; the model collects in list order) and concatenated; an
empty frame is returned when no unit produced data. -/
def MultiDatabaseFetcher_fetch (env : DBEnv) (databases : List String)
    (filters : List String) (limit : PyLimit) (date_column : String)
    (columns : Option (List String)) : DataFrame :=
  let frames := (databases.map
    (fun db => _fetch_single_database env db filters limit date_column columns)).filterMap id
  if frames.isEmpty then { cols := [], rows := [] }
  else concatFrames frames

/-! ## Quality / capability analyzer (`src/modules/analyzer.py`)

numpy float64 data is idealised as exact rationals.  `np.std` is the square
root of the population variance; every branch on it in the source is encoded
as an exact decidable predicate on the variance, with bridge lemmas relating
the encoding to `Real.sqrt`. -/

/-- Exact `np.mean(data)` (note: the analyzer only calls it on nonempty data). -/
def npMean (data : List ℚ) : ℚ := data.sum / (data.length : ℚ)

/-- Population variance, i.e. `np.var(data)` = `np.std(data) ** 2`
(numpy default `ddof=0`). -/
def npVar (data : List ℚ) : ℚ :=
  ((data.map (fun x => (x - npMean data) ^ 2)).sum) / (data.length : ℚ)

/-- Exact `np.max(data)` (0 for the empty list, which the analyzer never passes). -/
def npMax : List ℚ → ℚ
  | [] => 0
  | x :: xs => xs.foldl max x

/-- Exact `np.min(data)` (0 for the empty list, which the analyzer never passes). -/
def npMin : List ℚ → ℚ
  | [] => 0
  | x :: xs => xs.foldl min x

/-- Count `np.sum(data > usl)` of `_perform_quality_analysis`: the count of values
strictly above the upper specification limit. -/
def outOfSpecHigh (data : List ℚ) (usl : ℚ) : Nat :=
  data.countP (fun v => decide (usl < v))

/-- Count `len(data) - out_of_spec` for the USL block. -/
def withinSpecHigh (data : List ℚ) (usl : ℚ) : Nat :=
  data.length - outOfSpecHigh data usl

/-- Count `np.sum(data < lsl)` of `_perform_quality_analysis`: the count of values
strictly below the lower specification limit. -/
def outOfSpecLow (data : List ℚ) (lsl : ℚ) : Nat :=
  data.countP (fun v => decide (v < lsl))

/-- Count `len(data) - out_of_spec` for the LSL block. -/
def withinSpecLow (data : List ℚ) (lsl : ℚ) : Nat :=
  data.length - outOfSpecLow data lsl

/-- Count `np.sum((data > usl) | (data < lsl))` of `_perform_quality_analysis`. -/
def totalNok (data : List ℚ) (usl lsl : ℚ) : Nat :=
  data.countP (fun v => decide (usl < v) || decide (v < lsl))

/-- Result of `_calculate_cpk`: `float('inf')`, `0.0`, or the finite value
`min((usl-μ)/(3σ), (μ-lsl)/(3σ))`, recorded symbolically by its two
numerators and the variance σ² (σ itself is irrational in general). -/
inductive CpkValue where
  | posInf
  | zero
  | capability (uslMinusMean meanMinusLsl variance : ℚ)
deriving DecidableEq

/-- Embedding of `_calculate_cpk(data, usl, lsl)` from `analyzer.py`: `0.0` on empty
data; when `std_val == 0` (encoded as zero variance, see
`sqrt_npVar_eq_zero_iff`) the result is `float('inf')` if
`lsl <= mean <= usl` and `0.0` otherwise; otherwise the finite capability
value. -/
def _calculate_cpk (data : List ℚ) (usl lsl : ℚ) : CpkValue :=
  if data.length = 0 then .zero
  else
    if npVar data = 0 then
      if lsl ≤ npMean data ∧ npMean data ≤ usl then .posInf else .zero
    else .capability (usl - npMean data) (npMean data - lsl) (npVar data)

/-- Result of `_calculate_cp`, analogous to `CpkValue` with the finite value
`(usl-lsl)/(6σ)` recorded by its numerator and the variance. -/
inductive CpValue where
  | posInf
  | zero
  | capability (uslMinusLsl variance : ℚ)
deriving DecidableEq

/-- Embedding of `_calculate_cp(data, usl, lsl)` from `analyzer.py`: `0.0` on empty data;
`float('inf')` when `std_val == 0`, regardless of the mean; otherwise the
finite `(usl - lsl) / (6 * std)`. -/
def _calculate_cp (data : List ℚ) (usl lsl : ℚ) : CpValue :=
  if data.length = 0 then .zero
  else if npVar data = 0 then .posInf
  else .capability (usl - lsl) (npVar data)

/-- Decides `Real.sqrt v < c` for `0 ≤ v` (see `sqrtLtQ_iff`). -/
def sqrtLtQ (v c : ℚ) : Bool := decide (0 < c) && decide (v < c ^ 2)

/-- Decides `c < Real.sqrt v` for `0 ≤ v` (see `ltSqrtQ_iff`). -/
def ltSqrtQ (c v : ℚ) : Bool :=
  decide (c < 0) || (decide (0 ≤ c) && decide (c ^ 2 < v))

/-- Decides `100 * Real.sqrt v / m < t` for variance `v ≥ 0` and mean
`m ≠ 0` — the comparison `relative_std < threshold` of
`_generate_insights`, with `relative_std = (std_val / mean_val) * 100`
(see `relStdLt_iff`). -/
def relStdLt (v m t : ℚ) : Bool :=
  if 0 < m then sqrtLtQ v (t * m / 100)
  else ltSqrtQ (t * m / 100) v

/-- The process-stability classification of `_generate_insights`
(`analyzer.py` lines 428–438): produced only when
`data_range = np.max(data) - np.min(data)` is positive;
`relative_std = (std/mean)*100` when the mean is non-zero and `0`
otherwise; labelled `stable` below the stable threshold,
`moderately_stable` below the unstable threshold, `unstable` otherwise. -/
def processStability (data : List ℚ) (stableThreshold unstableThreshold : ℚ) :
    Option String :=
  if 0 < npMax data - npMin data then
    some
      (if npMean data = 0 then
        if (0 : ℚ) < stableThreshold then "stable"
        else if (0 : ℚ) < unstableThreshold then "moderately_stable"
        else "unstable"
      else
        if relStdLt (npVar data) (npMean data) stableThreshold then "stable"
        else if relStdLt (npVar data) (npMean data) unstableThreshold then "moderately_stable"
        else "unstable")
  else none

example :
    build_query "my_table" ["RefName = ABC123"] PyLimit.none "TimeStamp" =
      .ok ("SELECT * FROM `my_table` WHERE `RefName` = :param_0", [("param_0", "ABC123")]) := by
  decide

example :
    build_query "my_table" ["Status IN ACTIVE,PENDING"] PyLimit.none "TimeStamp" =
      .ok ("SELECT * FROM `my_table` WHERE `Status` IN (:param_0,:param_1)",
           [("param_0", "ACTIVE"), ("param_1", "PENDING")]) := by
  decide

example :
    build_query "my_table" ["Status = ACTIVE"] (PyLimit.int 100) "TimeStamp" =
      .ok ("SELECT * FROM `my_table` WHERE `Status` = :param_0 ORDER BY `TimeStamp` DESC LIMIT 100",
           [("param_0", "ACTIVE")]) := by
  decide

/-! ## C7: limit handling of `build_query` -/

/-- C7 counterexample.  The claim states that a provided limit of `0` must
fail with an `InvalidLimit` error.  In the source (`builder.py` line 90) the
limit clause is guarded by Python truthiness (`if limit:`), so `limit=0` is
falsy: the call succeeds and the limit is silently dropped — no `ORDER BY` /
`LIMIT` clause and no error. -/
theorem build_query_limit_zero_silently_ignored :
    build_query "my_table" ["Status = ACTIVE"] (PyLimit.int 0) "TimeStamp" =
      .ok ("SELECT * FROM `my_table` WHERE `Status` = :param_0", [("param_0", "ACTIVE")]) := by
  decide

/-- C7 (amended): when a limit is provided on an otherwise valid call,
a positive integer limit appends `ORDER BY <date_column> DESC LIMIT <n>` to
the query text; a negative integer limit and any truthy non-integer limit
fail with the `InvalidLimit` error (`ValueError("LIMIT must be a positive
integer")`); a limit of `0` is falsy in Python and is silently ignored:
the call succeeds with no ordering/limit clause. -/
theorem build_query_limit_behavior (table dcol : String) (filters : List String)
    (text : String) (params : List (String × String))
    (h : build_query table filters PyLimit.none dcol = .ok (text, params)) :
    (∀ n : ℤ, 0 < n → build_query table filters (PyLimit.int n) dcol =
        .ok (text ++ " ORDER BY " ++ ("`" ++ dcol ++ "`") ++ " DESC LIMIT " ++ toString n,
             params))
  ∧ (∀ n : ℤ, n < 0 → build_query table filters (PyLimit.int n) dcol =
        .error "LIMIT must be a positive integer")
  ∧ build_query table filters (PyLimit.int 0) dcol = .ok (text, params)
  ∧ (∀ q : ℚ, q ≠ 0 → build_query table filters (PyLimit.float q) dcol =
        .error "LIMIT must be a positive integer")
  ∧ (∀ s : String, s ≠ "" → build_query table filters (PyLimit.str s) dcol =
        .error "LIMIT must be a positive integer") := by
  unfold build_query at h
  cases hT : validIdent table with
  | false => rw [hT] at h; simp at h
  | true =>
  cases hD : validIdent dcol with
  | false => rw [hT, hD] at h; simp at h
  | true =>
  rw [hT, hD] at h
  simp only [Bool.not_true, Bool.false_eq_true, if_false] at h
  cases hbc : buildConditions 0 filters with
  | error e => rw [hbc] at h; simp at h
  | ok tpl =>
    obtain ⟨conds, params0, c⟩ := tpl
    rw [hbc] at h
    simp only [PyLimit.truthy, Bool.false_eq_true, if_false, Except.ok.injEq,
      Prod.mk.injEq] at h
    obtain ⟨rfl, rfl⟩ := h
    refine ⟨?_, ?_, ?_, ?_, ?_⟩
    · intro n hn
      unfold build_query
      rw [hT, hD]
      simp only [Bool.not_true, Bool.false_eq_true, if_false, hbc, PyLimit.truthy,
        decide_eq_true_eq]
      rw [if_pos (by omega : n ≠ 0), if_neg (by omega : ¬n ≤ 0)]
    · intro n hn
      unfold build_query
      rw [hT, hD]
      simp only [Bool.not_true, Bool.false_eq_true, if_false, hbc, PyLimit.truthy,
        decide_eq_true_eq]
      rw [if_pos (by omega : n ≠ 0), if_pos (by omega : n ≤ 0)]
    · unfold build_query
      rw [hT, hD]
      simp only [Bool.not_true, Bool.false_eq_true, if_false, hbc, PyLimit.truthy,
        decide_eq_true_eq]
      rw [if_neg (by simp : ¬(0 : ℤ) ≠ 0)]
    · intro q hq
      unfold build_query
      rw [hT, hD]
      simp only [Bool.not_true, Bool.false_eq_true, if_false, hbc, PyLimit.truthy,
        decide_eq_true_eq]
      rw [if_pos hq]
    · intro s hs
      unfold build_query
      rw [hT, hD]
      simp only [Bool.not_true, Bool.false_eq_true, if_false, hbc, PyLimit.truthy,
        decide_eq_true_eq]
      rw [if_pos hs]

/-- Witness for C7's amended theorem at a concrete call. -/
theorem build_query_limit_behavior_witness :
    build_query "my_table" ["Status = ACTIVE"] PyLimit.none "Date" =
      .ok ("SELECT * FROM `my_table` WHERE `Status` = :param_0", [("param_0", "ACTIVE")])
  ∧ build_query "my_table" ["Status = ACTIVE"] (PyLimit.int 10) "Date" =
      .ok ("SELECT * FROM `my_table` WHERE `Status` = :param_0 ORDER BY `Date` DESC LIMIT 10",
           [("param_0", "ACTIVE")])
  ∧ build_query "my_table" ["Status = ACTIVE"] (PyLimit.int (-5)) "Date" =
      .error "LIMIT must be a positive integer" :=
  ⟨by decide,
   (build_query_limit_behavior "my_table" "Date" ["Status = ACTIVE"]
      "SELECT * FROM `my_table` WHERE `Status` = :param_0" [("param_0", "ACTIVE")]
      (by decide)).1 10 (by decide),
   (build_query_limit_behavior "my_table" "Date" ["Status = ACTIVE"]
      "SELECT * FROM `my_table` WHERE `Status` = :param_0" [("param_0", "ACTIVE")]
      (by decide)).2.1 (-5) (by decide)⟩

/-! ## C1: values are bound via placeholders, never inlined (except IS) -/

theorem occursIn_self (p : String) : occursIn p p :=
  ⟨"", "", by rw [String.empty_append, String.append_empty]⟩

theorem occursIn_append_left {p s : String} (h : occursIn p s) (t : String) :
    occursIn p (s ++ t) := by
  obtain ⟨a, b, rfl⟩ := h
  exact ⟨a, b ++ t, by rw [String.append_assoc (a ++ p) b t]⟩

theorem occursIn_append_right {p s : String} (h : occursIn p s) (t : String) :
    occursIn p (t ++ s) := by
  obtain ⟨a, b, rfl⟩ := h
  exact ⟨t ++ a, b, by simp [String.append_assoc]⟩

theorem occursIn_pyJoin {e : String} (sep : String) {l : List String} (h : e ∈ l) :
    occursIn e (pyJoin sep l) := by
  induction l with
  | nil => cases h
  | cons x t ih =>
    cases t with
    | nil =>
      rcases List.mem_singleton.mp h with rfl
      exact occursIn_self e
    | cons y t2 =>
      rcases List.mem_cons.mp h with rfl | hmem
      · exact occursIn_append_left (occursIn_append_left (occursIn_self e) sep)
          (pyJoin sep (y :: t2))
      · exact occursIn_append_right (ih hmem) (x ++ sep)

theorem inPlaceholders_mem {e : String} :
    ∀ (vs : List String) (c : Nat), e ∈ vs →
      ∃ name, (name, e) ∈ (inPlaceholders c vs).2.1 ∧ (":" ++ name) ∈ (inPlaceholders c vs).1 := by
  intro vs
  induction vs with
  | nil => intro c h; cases h
  | cons v vs ih =>
    intro c h
    rcases List.mem_cons.mp h with rfl | hmem
    · exact ⟨"param_" ++ toString c, by simp [inPlaceholders]⟩
    · obtain ⟨name, hp, hph⟩ := ih (c + 1) hmem
      exact ⟨name, by simp [inPlaceholders, hp, hph]⟩

theorem inPlaceholders_shape :
    ∀ (vs ws : List String) (c : Nat), vs.length = ws.length →
      (inPlaceholders c vs).1 = (inPlaceholders c ws).1 ∧
      (inPlaceholders c vs).2.2 = (inPlaceholders c ws).2.2 := by
  intro vs
  induction vs with
  | nil =>
    intro ws c h
    cases ws with
    | nil => exact ⟨rfl, rfl⟩
    | cons w ws => cases h
  | cons v vs ih =>
    intro ws c h
    cases ws with
    | nil => cases h
    | cons w ws =>
      obtain ⟨h1, h2⟩ := ih ws (c + 1) (by simpa using h)
      exact ⟨by simp [inPlaceholders, h1], by simp [inPlaceholders, h2]⟩

theorem processFilter_bound (c : Nat) (col op v : String) :
    ((op = "IN" ∨ op = "NOT IN") → ∀ e ∈ (pySplitOn ',' v).map pyStrip,
      ∃ name, (name, e) ∈ (processFilter c col op v).2.1 ∧
        occursIn (":" ++ name) (processFilter c col op v).1)
  ∧ (op ≠ "IS" → op ≠ "IS NOT" → ¬(op = "IN" ∨ op = "NOT IN") →
      ∃ name, (name, v) ∈ (processFilter c col op v).2.1 ∧
        occursIn (":" ++ name) (processFilter c col op v).1)
  ∧ ((op = "IS" ∨ op = "IS NOT") →
      occursIn v (processFilter c col op v).1) := by
  by_cases h1 : op = "LIKE" ∨ op = "NOT LIKE"
  · have hni : ¬(op = "IN" ∨ op = "NOT IN") := by rcases h1 with rfl | rfl <;> decide
    have hnis : ¬(op = "IS" ∨ op = "IS NOT") := by rcases h1 with rfl | rfl <;> decide
    refine ⟨fun hIN => absurd hIN hni, fun _ _ _ => ?_, fun hIS => absurd hIS hnis⟩
    refine ⟨"param_" ++ toString c, ?_, ?_⟩
    · simp [processFilter, h1]
    · simp only [processFilter, if_pos h1]
      exact ⟨"`" ++ col ++ "` " ++ op ++ " ", "", (String.append_empty _).symm⟩
  · by_cases h2 : op = "IN" ∨ op = "NOT IN"
    · have hnis : ¬(op = "IS" ∨ op = "IS NOT") := by rcases h2 with rfl | rfl <;> decide
      refine ⟨fun _ e he => ?_, fun _ _ hni => absurd h2 hni, fun hIS => absurd hIS hnis⟩
      obtain ⟨name, hp, hph⟩ := inPlaceholders_mem ((pySplitOn ',' v).map pyStrip) c he
      refine ⟨name, ?_, ?_⟩
      · simp [processFilter, h1, h2, hp]
      · simp only [processFilter, if_neg h1, if_pos h2]
        exact occursIn_append_left
          (occursIn_append_right (occursIn_pyJoin "," hph) ("`" ++ col ++ "` " ++ op ++ " ("))
          ")"
    · by_cases h3 : op = "IS" ∨ op = "IS NOT"
      · refine ⟨fun hIN => absurd hIN h2, fun hnis1 hnis2 _ => ?_, fun _ => ?_⟩
        · rcases h3 with rfl | rfl
          · exact absurd rfl hnis1
          · exact absurd rfl hnis2
        · simp only [processFilter, if_neg h1, if_neg h2, if_pos h3]
          exact ⟨"`" ++ col ++ "` " ++ op ++ " ", "", (String.append_empty _).symm⟩
      · refine ⟨fun hIN => absurd hIN h2, fun _ _ _ => ?_, fun hIS => absurd hIS h3⟩
        refine ⟨"param_" ++ toString c, ?_, ?_⟩
        · simp [processFilter, h1, h2, h3]
        · simp only [processFilter, if_neg h1, if_neg h2, if_neg h3]
          exact ⟨"`" ++ col ++ "` " ++ op ++ " ", "", (String.append_empty _).symm⟩

theorem processFilter_shape (c : Nat) (col op v w : String)
    (hIN : (op = "IN" ∨ op = "NOT IN") →
      (pySplitOn ',' v).length = (pySplitOn ',' w).length)
    (hIS : (op = "IS" ∨ op = "IS NOT") → v = w) :
    (processFilter c col op v).1 = (processFilter c col op w).1 ∧
    (processFilter c col op v).2.2 = (processFilter c col op w).2.2 := by
  by_cases h1 : op = "LIKE" ∨ op = "NOT LIKE"
  · simp [processFilter, h1]
  · by_cases h2 : op = "IN" ∨ op = "NOT IN"
    · have hlen : ((pySplitOn ',' v).map pyStrip).length =
          ((pySplitOn ',' w).map pyStrip).length := by
        simpa using hIN h2
      obtain ⟨hp, hc⟩ := inPlaceholders_shape ((pySplitOn ',' v).map pyStrip)
        ((pySplitOn ',' w).map pyStrip) c hlen
      constructor
      · simp only [processFilter, if_neg h1, if_pos h2, hp]
      · simp only [processFilter, if_neg h1, if_pos h2, hc]
    · by_cases h3 : op = "IS" ∨ op = "IS NOT"
      · rw [hIS h3]
        exact ⟨rfl, rfl⟩
      · simp [processFilter, h1, h2, h3]

theorem occursIn_trans {p m s : String} (h1 : occursIn p m) (h2 : occursIn m s) :
    occursIn p s := by
  obtain ⟨a, b, rfl⟩ := h1
  obtain ⟨x, y, rfl⟩ := h2
  exact ⟨x ++ a, b ++ y, by simp [String.append_assoc]⟩

theorem buildConditions_bound :
    ∀ (fs : List String) (c : Nat) (conds : List String)
      (ps : List (String × String)) (c2 : Nat),
      buildConditions c fs = .ok (conds, ps, c2) →
      ∀ g ∈ fs, ∀ col op v, parse_filter_string g = .ok (col, op, v) →
        ((op = "IN" ∨ op = "NOT IN") → ∀ e ∈ (pySplitOn ',' v).map pyStrip,
          ∃ name, (name, e) ∈ ps ∧ ∃ cond, cond ∈ conds ∧ occursIn (":" ++ name) cond)
      ∧ (op ≠ "IS" → op ≠ "IS NOT" → ¬(op = "IN" ∨ op = "NOT IN") →
          ∃ name, (name, v) ∈ ps ∧ ∃ cond, cond ∈ conds ∧ occursIn (":" ++ name) cond)
      ∧ ((op = "IS" ∨ op = "IS NOT") → ∃ cond, cond ∈ conds ∧ occursIn v cond) := by
  intro fs
  induction fs with
  | nil => intro c conds ps c2 h g hg; cases hg
  | cons f fs ih =>
    intro c conds ps c2 h g hg col op v hpg
    unfold buildConditions at h
    cases hp : parse_filter_string f with
    | error e => rw [hp] at h; simp at h
    | ok t =>
      obtain ⟨colf, opf, vf⟩ := t
      rw [hp] at h
      dsimp only at h
      cases hbc : buildConditions (processFilter c colf opf vf).2.2 fs with
      | error e => rw [hbc] at h; simp at h
      | ok t2 =>
        obtain ⟨conds1, ps1, c3⟩ := t2
        rw [hbc] at h
        simp only [Except.ok.injEq, Prod.mk.injEq] at h
        obtain ⟨rfl, rfl, rfl⟩ := h
        rcases List.mem_cons.mp hg with rfl | hmem
        · rw [hp] at hpg
          simp only [Except.ok.injEq, Prod.mk.injEq] at hpg
          obtain ⟨rfl, rfl, rfl⟩ := hpg
          obtain ⟨hIN, hSc, hIS⟩ := processFilter_bound c colf opf vf
          refine ⟨fun hop e he => ?_, fun h1 h2 h3 => ?_, fun hop => ?_⟩
          · obtain ⟨name, hmem2, hocc⟩ := hIN hop e he
            exact ⟨name, List.mem_append_left _ hmem2,
              (processFilter c colf opf vf).1, List.mem_cons_self _ _, hocc⟩
          · obtain ⟨name, hmem2, hocc⟩ := hSc h1 h2 h3
            exact ⟨name, List.mem_append_left _ hmem2,
              (processFilter c colf opf vf).1, List.mem_cons_self _ _, hocc⟩
          · exact ⟨(processFilter c colf opf vf).1, List.mem_cons_self _ _, hIS hop⟩
        · have hrec := ih (processFilter c colf opf vf).2.2 conds1 ps1 c3 hbc g hmem col op v hpg
          refine ⟨fun hop e he => ?_, fun h1 h2 h3 => ?_, fun hop => ?_⟩
          · obtain ⟨name, hmem2, cond, hcmem, hocc⟩ := hrec.1 hop e he
            exact ⟨name, List.mem_append_right _ hmem2, cond, List.mem_cons_of_mem _ hcmem, hocc⟩
          · obtain ⟨name, hmem2, cond, hcmem, hocc⟩ := hrec.2.1 h1 h2 h3
            exact ⟨name, List.mem_append_right _ hmem2, cond, List.mem_cons_of_mem _ hcmem, hocc⟩
          · obtain ⟨cond, hcmem, hocc⟩ := hrec.2.2 hop
            exact ⟨cond, List.mem_cons_of_mem _ hcmem, hocc⟩

theorem buildConditions_shape :
    ∀ {fs gs : List String}, List.Forall₂ sameShape fs gs →
      ∀ (c : Nat) (conds : List String) (ps : List (String × String)) (c2 : Nat)
        (conds2 : List String) (ps2 : List (String × String)) (c3 : Nat),
        buildConditions c fs = .ok (conds, ps, c2) →
        buildConditions c gs = .ok (conds2, ps2, c3) →
        conds2 = conds ∧ c3 = c2 := by
  intro fs gs hshape
  induction hshape with
  | nil =>
    intro c conds ps c2 conds2 ps2 c3 h1 h2
    simp only [buildConditions, Except.ok.injEq, Prod.mk.injEq] at h1 h2
    obtain ⟨rfl, rfl, rfl⟩ := h1
    obtain ⟨rfl, rfl, rfl⟩ := h2
    exact ⟨rfl, rfl⟩
  | cons hfg htail ih =>
    rename_i f g fs2 gs2
    intro c conds ps c2 conds2 ps2 c3 h1 h2
    obtain ⟨col, op, v, w, hpf, hpg, hINlen, hISeq⟩ := hfg
    unfold buildConditions at h1 h2
    rw [hpf] at h1
    rw [hpg] at h2
    dsimp only at h1 h2
    obtain ⟨htext, hcount⟩ := processFilter_shape c col op v w hINlen hISeq
    cases hbc1 : buildConditions (processFilter c col op v).2.2 fs2 with
    | error e => rw [hbc1] at h1; simp at h1
    | ok t1 =>
      obtain ⟨conds1, ps1, c4⟩ := t1
      cases hbc2 : buildConditions (processFilter c col op w).2.2 gs2 with
      | error e => rw [hbc2] at h2; simp at h2
      | ok t2 =>
        obtain ⟨conds5, ps5, c5⟩ := t2
        rw [hbc1] at h1
        rw [hbc2] at h2
        simp only [Except.ok.injEq, Prod.mk.injEq] at h1 h2
        obtain ⟨rfl, rfl, rfl⟩ := h1
        obtain ⟨rfl, rfl, rfl⟩ := h2
        rw [hcount] at hbc1
        obtain ⟨hceq, hc2eq⟩ := ih _ _ _ _ _ _ _ hbc1 hbc2
        exact ⟨by rw [htext, hceq], hc2eq⟩

theorem build_query_ok_inv {table dcol : String} {filters : List String} {limit : PyLimit}
    {text : String} {params : List (String × String)}
    (h : build_query table filters limit dcol = .ok (text, params)) :
    validIdent table = true ∧ validIdent dcol = true ∧
    ∃ conds c2, buildConditions 0 filters = .ok (conds, params, c2) ∧
      text = baseQuery table conds ++ limitSuffix limit dcol := by
  unfold build_query at h
  cases hT : validIdent table with
  | false => rw [hT] at h; simp at h
  | true =>
  cases hD : validIdent dcol with
  | false => rw [hT, hD] at h; simp at h
  | true =>
  rw [hT, hD] at h
  simp only [Bool.not_true, Bool.false_eq_true, if_false] at h
  cases hbc : buildConditions 0 filters with
  | error e => rw [hbc] at h; simp at h
  | ok t =>
    obtain ⟨conds, params0, c⟩ := t
    rw [hbc] at h
    refine ⟨rfl, rfl, ?_⟩
    cases limit with
    | none =>
      simp only [PyLimit.truthy, Bool.false_eq_true, if_false, Except.ok.injEq,
        Prod.mk.injEq] at h
      obtain ⟨rfl, rfl⟩ := h
      exact ⟨conds, c, rfl, by simp [limitSuffix, String.append_empty]⟩
    | int n =>
      simp only [PyLimit.truthy, decide_eq_true_eq] at h
      by_cases hn : n = 0
      · subst hn
        rw [if_neg (by simp)] at h
        simp only [Except.ok.injEq, Prod.mk.injEq] at h
        obtain ⟨rfl, rfl⟩ := h
        exact ⟨conds, c, rfl, by simp [limitSuffix, String.append_empty]⟩
      · rw [if_pos hn] at h
        by_cases hneg : n ≤ 0
        · rw [if_pos hneg] at h; simp at h
        · rw [if_neg hneg] at h
          simp only [Except.ok.injEq, Prod.mk.injEq] at h
          obtain ⟨rfl, rfl⟩ := h
          refine ⟨conds, c, rfl, ?_⟩
          simp [limitSuffix, if_pos (by omega : 0 < n), String.append_assoc]
    | float q =>
      simp only [PyLimit.truthy, decide_eq_true_eq] at h
      by_cases hq : q = 0
      · subst hq
        rw [if_neg (by simp)] at h
        simp only [Except.ok.injEq, Prod.mk.injEq] at h
        obtain ⟨rfl, rfl⟩ := h
        exact ⟨conds, c, rfl, by simp [limitSuffix, String.append_empty]⟩
      · rw [if_pos hq] at h; simp at h
    | str s =>
      simp only [PyLimit.truthy, decide_eq_true_eq] at h
      by_cases hs : s = ""
      · subst hs
        rw [if_neg (by simp)] at h
        simp only [Except.ok.injEq, Prod.mk.injEq] at h
        obtain ⟨rfl, rfl⟩ := h
        exact ⟨conds, c, rfl, by simp [limitSuffix, String.append_empty]⟩
      · rw [if_pos hs] at h; simp at h

/-- C1: for every accepted call, every filter value whose operator is not
`IS`/`IS NOT` is bound in the params map under a placeholder name that occurs
in the query text (`IN`/`NOT IN` values element-wise after comma-splitting
and stripping); the query text itself does not depend on those values (two
filter lists of the same shape yield the identical text); only the
`IS`/`IS NOT` path inlines its value into the text. -/
theorem build_query_value_binding
    (table dcol : String) (filters : List String) (limit : PyLimit)
    (text : String) (params : List (String × String))
    (h : build_query table filters limit dcol = .ok (text, params)) :
    (∀ f ∈ filters, ∀ col op v, parse_filter_string f = .ok (col, op, v) →
        ((op = "IN" ∨ op = "NOT IN") → ∀ e ∈ (pySplitOn ',' v).map pyStrip,
            ∃ name, (name, e) ∈ params ∧ occursIn (":" ++ name) text)
      ∧ (op ≠ "IS" → op ≠ "IS NOT" → ¬(op = "IN" ∨ op = "NOT IN") →
            ∃ name, (name, v) ∈ params ∧ occursIn (":" ++ name) text)
      ∧ ((op = "IS" ∨ op = "IS NOT") → occursIn v text))
  ∧ (∀ filters' text' params', List.Forall₂ sameShape filters filters' →
      build_query table filters' limit dcol = .ok (text', params') → text' = text) := by
  obtain ⟨hT, hD, conds, c2, hbc, htext⟩ := build_query_ok_inv h
  have hlift : ∀ cond, cond ∈ conds → ∀ p, occursIn p cond → occursIn p text := by
    intro cond hc p hp
    rw [htext]
    apply occursIn_append_left
    unfold baseQuery
    rw [if_neg (by simpa using List.ne_nil_of_mem hc)]
    exact occursIn_append_right (occursIn_trans hp (occursIn_pyJoin " AND " hc))
      ("SELECT * FROM " ++ ("`" ++ table ++ "`") ++ " WHERE ")
  constructor
  · intro f hf col op v hp
    have hb := buildConditions_bound filters 0 conds params c2 hbc f hf col op v hp
    refine ⟨fun hop e he => ?_, fun h1 h2 h3 => ?_, fun hop => ?_⟩
    · obtain ⟨name, hmem, cond, hcmem, hocc⟩ := hb.1 hop e he
      exact ⟨name, hmem, hlift cond hcmem _ hocc⟩
    · obtain ⟨name, hmem, cond, hcmem, hocc⟩ := hb.2.1 h1 h2 h3
      exact ⟨name, hmem, hlift cond hcmem _ hocc⟩
    · obtain ⟨cond, hcmem, hocc⟩ := hb.2.2 hop
      exact hlift cond hcmem _ hocc
  · intro filters2 text2 params2 hshape h2
    obtain ⟨_, _, conds2, c3, hbc2, htext2⟩ := build_query_ok_inv h2
    obtain ⟨hceq, _⟩ := buildConditions_shape hshape 0 conds params c2 conds2 params2 c3 hbc hbc2
    rw [htext2, htext, hceq]

/-- Witness for C1 at a concrete accepted call covering the scalar, the
`IN`, and the `IS` paths. -/
theorem build_query_value_binding_witness :
    (∃ name, (name, "V123") ∈
        ([("param_0", "V123"), ("param_1", "A1"), ("param_2", "A2")] : List (String × String)) ∧
      occursIn (":" ++ name)
        "SELECT * FROM `t` WHERE `RefName` LIKE :param_0 AND `Line` IN (:param_1,:param_2) AND `Flag` IS NULL")
  ∧ (∃ name, (name, "A1") ∈
        ([("param_0", "V123"), ("param_1", "A1"), ("param_2", "A2")] : List (String × String)) ∧
      occursIn (":" ++ name)
        "SELECT * FROM `t` WHERE `RefName` LIKE :param_0 AND `Line` IN (:param_1,:param_2) AND `Flag` IS NULL")
  ∧ occursIn "NULL"
        "SELECT * FROM `t` WHERE `RefName` LIKE :param_0 AND `Line` IN (:param_1,:param_2) AND `Flag` IS NULL" := by
  have h := build_query_value_binding "t" "TimeStamp"
    ["RefName LIKE V123", "Line IN A1,A2", "Flag IS NULL"] PyLimit.none
    "SELECT * FROM `t` WHERE `RefName` LIKE :param_0 AND `Line` IN (:param_1,:param_2) AND `Flag` IS NULL"
    [("param_0", "V123"), ("param_1", "A1"), ("param_2", "A2")]
    (by decide)
  refine ⟨?_, ?_, ?_⟩
  · exact (h.1 "RefName LIKE V123" (by simp) "RefName" "LIKE" "V123" (by decide)).2.1
      (by decide) (by decide) (by decide)
  · exact (h.1 "Line IN A1,A2" (by simp) "Line" "IN" "A1,A2" (by decide)).1
      (Or.inl rfl) "A1" (by decide)
  · exact (h.1 "Flag IS NULL" (by simp) "Flag" "IS" "NULL" (by decide)).2.2 (Or.inl rfl)

/-! ## C2: post-dedup uniqueness of the identifier column -/

theorem mem_of_mem_dropDupKeepLast {key : Row → Option Cell} {l : List Row} {x : Row}
    (h : x ∈ dropDupKeepLast key l) : x ∈ l := by
  induction l with
  | nil => cases h
  | cons r rs ih =>
    unfold dropDupKeepLast at h
    by_cases hc : key r ∈ rs.map key
    · rw [if_pos hc] at h
      exact List.mem_cons_of_mem _ (ih h)
    · rw [if_neg hc] at h
      rcases List.mem_cons.mp h with rfl | h2
      · exact List.mem_cons_self _ _
      · exact List.mem_cons_of_mem _ (ih h2)

theorem dropDupKeepLast_keys_nodup (key : Row → Option Cell) (l : List Row) :
    ((dropDupKeepLast key l).map key).Nodup := by
  induction l with
  | nil => simp [dropDupKeepLast]
  | cons r rs ih =>
    unfold dropDupKeepLast
    by_cases hc : key r ∈ rs.map key
    · rw [if_pos hc]
      exact ih
    · rw [if_neg hc]
      simp only [List.map_cons, List.nodup_cons]
      refine ⟨fun hmem => hc ?_, ih⟩
      obtain ⟨x, hx, hkey⟩ := List.mem_map.mp hmem
      exact hkey ▸ List.mem_map_of_mem key (mem_of_mem_dropDupKeepLast hx)

theorem dropDupKeepFirstAux_keys_nodup (key : Row → Option Cell) :
    ∀ (l : List Row) (seen : List (Option Cell)),
      ((dropDupKeepFirstAux key seen l).map key).Nodup ∧
      ∀ k ∈ (dropDupKeepFirstAux key seen l).map key, k ∉ seen := by
  intro l
  induction l with
  | nil => intro seen; simp [dropDupKeepFirstAux]
  | cons r rs ih =>
    intro seen
    unfold dropDupKeepFirstAux
    by_cases hc : key r ∈ seen
    · rw [if_pos hc]
      exact ih seen
    · rw [if_neg hc]
      obtain ⟨ihn, ihs⟩ := ih (key r :: seen)
      constructor
      · simp only [List.map_cons, List.nodup_cons]
        exact ⟨fun hmem => (ihs _ hmem) (List.mem_cons_self _ _), ihn⟩
      · intro k hk
        simp only [List.map_cons, List.mem_cons] at hk
        rcases hk with rfl | hk2
        · exact hc
        · exact fun hkseen => (ihs k hk2) (List.mem_cons_of_mem _ hkseen)

theorem dropDupKeepFirst_keys_nodup (key : Row → Option Cell) (l : List Row) :
    ((dropDupKeepFirst key l).map key).Nodup :=
  (dropDupKeepFirstAux_keys_nodup key l []).1

theorem distinctKeyCount_eq_length {key : Row → Option Cell} {rows : List Row}
    (h : (rows.map key).Nodup) : distinctKeyCount key rows = rows.length := by
  unfold distinctKeyCount
  rw [List.dedup_eq_self.mpr h, List.length_map]

/-- C2: after the deduplication step, the number of distinct
unique-identifier values equals the number of output rows, for every
collection of retained source tables that all contain the identifier column,
under every requested strategy (`latest_wins` with any timestamp ordering of
the concatenated rows, as well as `first_occurrence`). -/
theorem combine_unique_id_invariant (sortRows : List Row → List Row)
    (strategy uidCol tsCol : String) (tables : List DataFrame)
    (hne : tables ≠ []) (hall : ∀ t ∈ tables, uidCol ∈ t.cols) :
    distinctKeyCount (fun r => rowValue r uidCol)
        (combineDedup sortRows strategy uidCol tsCol (concatFrames tables)).outRows =
      (combineDedup sortRows strategy uidCol tsCol (concatFrames tables)).outRows.length := by
  have huid : uidCol ∈ (concatFrames tables).cols := by
    obtain ⟨t, ht⟩ := List.exists_mem_of_ne_nil tables hne
    exact List.mem_flatten.mpr ⟨t.cols, List.mem_map_of_mem _ ht, hall t ht⟩
  unfold combineDedup
  rw [if_pos huid]
  by_cases hl : strategy = "latest_wins" ∧ tsCol ∈ (concatFrames tables).cols
  · rw [if_pos hl]
    exact distinctKeyCount_eq_length (dropDupKeepLast_keys_nodup _ _)
  · rw [if_neg hl]
    exact distinctKeyCount_eq_length (dropDupKeepFirst_keys_nodup _ _)

/-- Witness for C2 at two concrete one-row source tables sharing the
identifier value `X1`. -/
theorem combine_unique_id_invariant_witness :
    (([⟨["TraceCode", "timestamp"], [[("TraceCode", Cell.str "X1"),
          ("timestamp", Cell.num 1)]]⟩,
       ⟨["TraceCode", "timestamp"], [[("TraceCode", Cell.str "X1"),
          ("timestamp", Cell.num 2)]]⟩] : List DataFrame) ≠ [])
  ∧ distinctKeyCount (fun r => rowValue r "TraceCode")
      (combineDedup id "latest_wins" "TraceCode" "timestamp"
        (concatFrames
          [⟨["TraceCode", "timestamp"], [[("TraceCode", Cell.str "X1"),
              ("timestamp", Cell.num 1)]]⟩,
           ⟨["TraceCode", "timestamp"], [[("TraceCode", Cell.str "X1"),
              ("timestamp", Cell.num 2)]]⟩])).outRows =
      (combineDedup id "latest_wins" "TraceCode" "timestamp"
        (concatFrames
          [⟨["TraceCode", "timestamp"], [[("TraceCode", Cell.str "X1"),
              ("timestamp", Cell.num 1)]]⟩,
           ⟨["TraceCode", "timestamp"], [[("TraceCode", Cell.str "X1"),
              ("timestamp", Cell.num 2)]]⟩])).outRows.length :=
  ⟨by decide,
   combine_unique_id_invariant id "latest_wins" "TraceCode" "timestamp" _
     (by decide) (by decide)⟩

/-! ## C6: fallback to first-occurrence and its recorded metadata -/

/-- C6 counterexample.  With `latest_wins` requested but the timestamp
column absent, the engine does fall back to first-occurrence deduplication
(first-occurrence log message, first row kept), yet the recorded
`deduplication_info.strategy` is the requested `"latest_wins"` — not
`"first_occurrence"` as claimed (and the absent timestamp column is even
recorded as the one used). -/
theorem combine_fallback_metadata_counterexample :
    (combineDedup id "latest_wins" "TraceCode" "timestamp"
        ⟨["TraceCode", "Value"],
         [[("TraceCode", Cell.str "X"), ("Value", Cell.num 1)],
          [("TraceCode", Cell.str "X"), ("Value", Cell.num 2)]]⟩).outRows =
      [[("TraceCode", Cell.str "X"), ("Value", Cell.num 1)]]
  ∧ (combineDedup id "latest_wins" "TraceCode" "timestamp"
        ⟨["TraceCode", "Value"],
         [[("TraceCode", Cell.str "X"), ("Value", Cell.num 1)],
          [("TraceCode", Cell.str "X"), ("Value", Cell.num 2)]]⟩).appliedMessage =
      some "Applied 'first occurrence' deduplication strategy"
  ∧ (combineDedup id "latest_wins" "TraceCode" "timestamp"
        ⟨["TraceCode", "Value"],
         [[("TraceCode", Cell.str "X"), ("Value", Cell.num 1)],
          [("TraceCode", Cell.str "X"), ("Value", Cell.num 2)]]⟩).recordedStrategy =
      "latest_wins"
  ∧ ("latest_wins" : String) ≠ "first_occurrence" := by
  refine ⟨by decide, by decide, by decide, by decide⟩

/-- C6 (amended): when `latest_wins` is requested but the timestamp column
is absent from the combined data, the engine falls back to first-occurrence
deduplication and logs the first-occurrence message, but the recorded
metadata still reports the requested `latest_wins` strategy, and even
records the absent timestamp column name as the one used. -/
theorem combine_fallback_records_requested_strategy (sortRows : List Row → List Row)
    (uidCol tsCol : String) (combined : DataFrame)
    (huid : uidCol ∈ combined.cols) (hts : tsCol ∉ combined.cols) :
    (combineDedup sortRows "latest_wins" uidCol tsCol combined).outRows =
      dropDupKeepFirst (fun r => rowValue r uidCol) combined.rows
  ∧ (combineDedup sortRows "latest_wins" uidCol tsCol combined).appliedMessage =
      some "Applied 'first occurrence' deduplication strategy"
  ∧ (combineDedup sortRows "latest_wins" uidCol tsCol combined).recordedStrategy =
      "latest_wins"
  ∧ (combineDedup sortRows "latest_wins" uidCol tsCol combined).recordedTimestampColumn =
      some tsCol := by
  unfold combineDedup
  rw [if_pos huid, if_neg (fun hl => hts hl.2)]
  exact ⟨rfl, rfl, rfl, by rw [if_pos rfl]⟩

/-- Witness for C6's amended theorem at a concrete combined frame. -/
theorem combine_fallback_records_requested_strategy_witness :
    ("TraceCode" ∈ (⟨["TraceCode", "Value"],
        [[("TraceCode", Cell.str "X"), ("Value", Cell.num 1)],
         [("TraceCode", Cell.str "X"), ("Value", Cell.num 2)]]⟩ : DataFrame).cols)
  ∧ ("timestamp" ∉ (⟨["TraceCode", "Value"],
        [[("TraceCode", Cell.str "X"), ("Value", Cell.num 1)],
         [("TraceCode", Cell.str "X"), ("Value", Cell.num 2)]]⟩ : DataFrame).cols)
  ∧ (combineDedup id "latest_wins" "TraceCode" "timestamp"
        ⟨["TraceCode", "Value"],
         [[("TraceCode", Cell.str "X"), ("Value", Cell.num 1)],
          [("TraceCode", Cell.str "X"), ("Value", Cell.num 2)]]⟩).recordedStrategy =
      "latest_wins" :=
  ⟨by decide, by decide,
   (combine_fallback_records_requested_strategy id "TraceCode" "timestamp"
      ⟨["TraceCode", "Value"],
       [[("TraceCode", Cell.str "X"), ("Value", Cell.num 1)],
        [("TraceCode", Cell.str "X"), ("Value", Cell.num 2)]]⟩
      (by decide) (by decide)).2.2.1⟩

/-! ## C3 / C4: the five-argument `build_query` call in the fetcher -/

theorem fetch_single_always_none (env : DBEnv) (database : String)
    (filters : List String) (limit : PyLimit) (date_column : String)
    (columns : Option (List String)) :
    _fetch_single_database env database filters limit date_column columns = none := by
  unfold _fetch_single_database
  cases env.getEngine database with
  | error e => rfl
  | ok u =>
    cases env.cfgTable database with
    | error e => rfl
    | ok table => rfl

/-- C4: because `_fetch_single_database` passes five positional arguments to
the four-parameter `build_query`, every per-source task raises `TypeError`,
is caught, and contributes no frame: `MultiDatabaseFetcher.fetch` returns
the empty table for every non-empty database list and every argument
combination. -/
theorem multi_fetch_always_empty (env : DBEnv) (databases : List String)
    (filters : List String) (limit : PyLimit) (date_column : String)
    (columns : Option (List String)) (hne : databases ≠ []) :
    MultiDatabaseFetcher_fetch env databases filters limit date_column columns =
      ⟨[], []⟩ := by
  have hmap : ∀ dbs : List String,
      (dbs.map (fun db => _fetch_single_database env db filters limit date_column
        columns)).filterMap id = [] := by
    intro dbs
    induction dbs with
    | nil => rfl
    | cons d ds ih => simp [fetch_single_always_none, ih]
  unfold MultiDatabaseFetcher_fetch
  rw [hmap databases]
  rfl

/-- Witness for C4 at a concrete environment in which every collaborator
succeeds and returns data. -/
theorem multi_fetch_always_empty_witness :
    (["db1"] : List String) ≠ []
  ∧ MultiDatabaseFetcher_fetch
      { getEngine := fun _ => .ok (),
        cfgTable := fun _ => .ok "measurements",
        fetchData := fun _ _ _ => ⟨["Value"], [[("Value", Cell.num 1)]]⟩ }
      ["db1"] [] PyLimit.none "TimeStamp" none = ⟨[], []⟩ :=
  ⟨by decide,
   multi_fetch_always_empty
     { getEngine := fun _ => .ok (),
       cfgTable := fun _ => .ok "measurements",
       fetchData := fun _ _ _ => ⟨["Value"], [[("Value", Cell.num 1)]]⟩ }
     ["db1"] [] PyLimit.none "TimeStamp" none (by decide)⟩

/-- C3 evaluated at the failing input of the spec's own scenario: three
sources, source 2's connection raises, sources 1 and 3 are healthy and
return a row each.  The claim expects the output to contain the rows of
sources 1 and 3; the code returns the empty table, because every source —
healthy or not — dies on the `TypeError` from the five-argument
`build_query` call. -/
theorem multi_fetch_failure_isolation_failing_input :
    MultiDatabaseFetcher_fetch
      { getEngine := fun db => if db = "source2" then .error "Connection failed" else .ok (),
        cfgTable := fun _ => .ok "measurements",
        fetchData := fun _ _ _ => ⟨["Value"], [[("Value", Cell.num 1)]]⟩ }
      ["source1", "source2", "source3"] ["Status = ACTIVE"] PyLimit.none "TimeStamp" none =
      ⟨[], []⟩ := by
  decide

/-! ## C10: strict out-of-spec counting -/

/-- C10: spec-limit counting uses strict inequalities — a value exactly at
`usl` (resp. `lsl`) is not counted out of spec high (resp. low) but is
counted within spec, and the combined count is exactly the number of values
strictly outside both limits (the strictly-high plus the strictly-low
counts), unchanged by adding boundary values. -/
theorem spec_limit_counts_strict (data : List ℚ) (usl lsl : ℚ) (h : lsl ≤ usl) :
    outOfSpecHigh (usl :: data) usl = outOfSpecHigh data usl
  ∧ withinSpecHigh (usl :: data) usl = withinSpecHigh data usl + 1
  ∧ outOfSpecLow (lsl :: data) lsl = outOfSpecLow data lsl
  ∧ withinSpecLow (lsl :: data) lsl = withinSpecLow data lsl + 1
  ∧ totalNok data usl lsl = outOfSpecHigh data usl + outOfSpecLow data lsl
  ∧ totalNok (usl :: lsl :: data) usl lsl = totalNok data usl lsl := by
  have hhigh : outOfSpecHigh (usl :: data) usl = outOfSpecHigh data usl := by
    simp [outOfSpecHigh, List.countP_cons]
  have hlow : outOfSpecLow (lsl :: data) lsl = outOfSpecLow data lsl := by
    simp [outOfSpecLow, List.countP_cons]
  have hsum : totalNok data usl lsl = outOfSpecHigh data usl + outOfSpecLow data lsl := by
    clear hhigh hlow
    unfold totalNok outOfSpecHigh outOfSpecLow
    induction data with
    | nil => rfl
    | cons a l ih =>
      rw [List.countP_cons, List.countP_cons, List.countP_cons, ih]
      by_cases h1 : usl < a
      · have h2 : ¬a < lsl := by linarith
        simp [h1, h2]
        omega
      · by_cases h2 : a < lsl
        · simp [h1, h2]
          omega
        · simp [h1, h2]
  have hboundary : totalNok (usl :: lsl :: data) usl lsl = totalNok data usl lsl := by
    have h1 : ¬usl < usl := lt_irrefl usl
    have h2 : ¬usl < lsl := not_lt.mpr h
    have h3 : ¬lsl < lsl := lt_irrefl lsl
    simp [totalNok, List.countP_cons, h1, h2, h3]
  have hleh : outOfSpecHigh data usl ≤ data.length := List.countP_le_length _
  have hlel : outOfSpecLow data lsl ≤ data.length := List.countP_le_length _
  refine ⟨hhigh, ?_, hlow, ?_, hsum, hboundary⟩
  · unfold withinSpecHigh
    rw [hhigh]
    simp only [List.length_cons]
    omega
  · unfold withinSpecLow
    rw [hlow]
    simp only [List.length_cons]
    omega

/-- Witness for C10 at concrete data containing both boundary values. -/
theorem spec_limit_counts_strict_witness :
    ((0 : ℚ) ≤ 10)
  ∧ outOfSpecHigh ((10 : ℚ) :: [0, 10, 5, 11, -1]) 10 = outOfSpecHigh [0, 10, 5, 11, -1] 10
  ∧ totalNok ([0, 10, 5, 11, -1] : List ℚ) 10 0 =
      outOfSpecHigh [0, 10, 5, 11, -1] 10 + outOfSpecLow [0, 10, 5, 11, -1] 0 :=
  ⟨by norm_num,
   (spec_limit_counts_strict [0, 10, 5, 11, -1] 10 0 (by norm_num)).1,
   (spec_limit_counts_strict [0, 10, 5, 11, -1] 10 0 (by norm_num)).2.2.2.2.1⟩

/-! ## C8: Cp / Cpk in the σ = 0 degenerate case -/

theorem npVar_nonneg (data : List ℚ) : 0 ≤ npVar data := by
  unfold npVar
  apply div_nonneg
  · apply List.sum_nonneg
    intro x hx
    obtain ⟨y, hy, rfl⟩ := List.mem_map.mp hx
    positivity
  · exact_mod_cast Nat.zero_le _

theorem sqrt_npVar_eq_zero_iff (data : List ℚ) :
    Real.sqrt (npVar data) = 0 ↔ npVar data = 0 := by
  rw [Real.sqrt_eq_zero (by exact_mod_cast npVar_nonneg data)]
  exact Rat.cast_eq_zero

/-- C8: with both limits supplied and a zero population standard deviation,
`Cpk` is `+inf` when the mean lies within `[lsl, usl]` and `0` otherwise,
while `Cp` is `+inf` regardless of the mean. -/
theorem cpk_cp_sigma_zero (data : List ℚ) (usl lsl : ℚ) (hne : data ≠ [])
    (hσ : Real.sqrt (npVar data) = 0) :
    _calculate_cpk data usl lsl =
      (if lsl ≤ npMean data ∧ npMean data ≤ usl then CpkValue.posInf else CpkValue.zero)
  ∧ _calculate_cp data usl lsl = CpValue.posInf := by
  have hv : npVar data = 0 := (sqrt_npVar_eq_zero_iff data).mp hσ
  have hlen : ¬data.length = 0 := fun h0 => hne (List.length_eq_zero.mp h0)
  constructor
  · unfold _calculate_cpk
    rw [if_neg hlen, if_pos hv]
  · unfold _calculate_cp
    rw [if_neg hlen, if_pos hv]

/-- Witness for C8 at the spec's own σ = 0 example `[5, 5, 5]`,
`usl = 10`, `lsl = 0`. -/
theorem cpk_cp_sigma_zero_witness :
    (([5, 5, 5] : List ℚ) ≠ [])
  ∧ Real.sqrt (npVar [5, 5, 5]) = 0
  ∧ _calculate_cpk [5, 5, 5] 10 0 = CpkValue.posInf
  ∧ _calculate_cp [5, 5, 5] 10 0 = CpValue.posInf := by
  have hvar : npVar ([5, 5, 5] : List ℚ) = 0 := by
    norm_num [npVar, npMean]
  have hσ : Real.sqrt (npVar ([5, 5, 5] : List ℚ)) = 0 := by
    rw [hvar]
    simp
  have h := cpk_cp_sigma_zero [5, 5, 5] 10 0 (by decide) hσ
  refine ⟨by decide, hσ, ?_, h.2⟩
  rw [h.1, if_pos (by constructor <;> norm_num [npMean])]

/-! ## C9: process-stability classification -/

theorem foldl_min_le (a : ℚ) (l : List ℚ) : l.foldl min a ≤ a := by
  induction l generalizing a with
  | nil => exact le_refl a
  | cons x xs ih => exact le_trans (ih (min a x)) (min_le_left a x)

theorem le_foldl_max (a : ℚ) (l : List ℚ) : a ≤ l.foldl max a := by
  induction l generalizing a with
  | nil => exact le_refl a
  | cons x xs ih => exact le_trans (le_max_left a x) (ih (max a x))

theorem npMin_le_npMax {data : List ℚ} (hne : data ≠ []) : npMin data ≤ npMax data := by
  cases data with
  | nil => exact absurd rfl hne
  | cons x xs => exact le_trans (foldl_min_le x xs) (le_foldl_max x xs)

theorem sqrtLtQ_iff (v c : ℚ) :
    sqrtLtQ v c = true ↔ Real.sqrt v < (c : ℝ) := by
  unfold sqrtLtQ
  simp only [Bool.and_eq_true, decide_eq_true_eq]
  constructor
  · rintro ⟨hc, hvc⟩
    have hc2 : (0 : ℝ) < (c : ℝ) := by exact_mod_cast hc
    rw [Real.sqrt_lt' hc2]
    exact_mod_cast hvc
  · intro hlt
    have hc2 : (0 : ℝ) < (c : ℝ) := lt_of_le_of_lt (Real.sqrt_nonneg _) hlt
    refine ⟨by exact_mod_cast hc2, ?_⟩
    have := (Real.sqrt_lt' hc2).mp hlt
    exact_mod_cast this

theorem ltSqrtQ_iff (c v : ℚ) :
    ltSqrtQ c v = true ↔ (c : ℝ) < Real.sqrt v := by
  unfold ltSqrtQ
  simp only [Bool.or_eq_true, Bool.and_eq_true, decide_eq_true_eq]
  constructor
  · rintro (hc | ⟨hc0, hcv⟩)
    · have hc2 : (c : ℝ) < 0 := by exact_mod_cast hc
      exact lt_of_lt_of_le hc2 (Real.sqrt_nonneg _)
    · rw [Real.lt_sqrt (by exact_mod_cast hc0)]
      exact_mod_cast hcv
  · intro hlt
    by_cases hc : c < 0
    · exact Or.inl hc
    · right
      have hc0 : (0 : ℚ) ≤ c := not_lt.mp hc
      refine ⟨hc0, ?_⟩
      have := (Real.lt_sqrt (by exact_mod_cast hc0)).mp hlt
      exact_mod_cast this

theorem relStdLt_iff (v m t : ℚ) (hm : m ≠ 0) :
    relStdLt v m t = true ↔ 100 * Real.sqrt v / (m : ℝ) < (t : ℝ) := by
  unfold relStdLt
  by_cases hmp : 0 < m
  · have hm2 : (0 : ℝ) < (m : ℝ) := by exact_mod_cast hmp
    rw [if_pos hmp, sqrtLtQ_iff v (t * m / 100), div_lt_iff hm2]
    constructor
    · intro hlt
      push_cast at hlt
      nlinarith [Real.sqrt_nonneg ((v : ℝ))]
    · intro hlt
      push_cast
      nlinarith
  · have hmneg : m < 0 := lt_of_le_of_ne (not_lt.mp hmp) hm
    have hm2 : (m : ℝ) < 0 := by exact_mod_cast hmneg
    rw [if_neg hmp, ltSqrtQ_iff (t * m / 100) v, div_lt_iff_of_neg hm2]
    constructor
    · intro hlt
      push_cast at hlt
      nlinarith
    · intro hlt
      push_cast
      nlinarith

/-- C9 counterexample.  For the values `[-1, 1]` the mean is `0`, yet the
classification is not skipped: the source sets the relative standard
deviation to `0` when the mean is zero and still classifies, labelling the
data `stable` (with the default thresholds 10 and 25). -/
theorem stability_mean_zero_counterexample :
    npMean [-1, 1] = 0 ∧ processStability [-1, 1] 10 25 = some "stable" := by
  have hm : npMean [-1, 1] = 0 := by norm_num [npMean]
  refine ⟨hm, ?_⟩
  unfold processStability
  rw [if_pos (by norm_num [npMax, npMin] : (0 : ℚ) < npMax [-1, 1] - npMin [-1, 1])]
  rw [if_pos hm, if_pos (by norm_num : (0 : ℚ) < 10)]

/-- C9 (amended): the stability classification is skipped exactly when the
data range is zero (all values equal), whatever the mean; when the range is
positive and the mean is `0`, the relative standard deviation is taken to be
`0` and a positive lower threshold yields the label `stable`; when the range
is positive and the mean is non-zero, the label is classified by
`σ/mean × 100` against the two thresholds. -/
theorem processStability_spec (data : List ℚ) (t1 t2 : ℚ) (hne : data ≠ []) :
    (processStability data t1 t2 = none ↔ npMax data = npMin data)
  ∧ (npMean data = 0 → npMax data ≠ npMin data → 0 < t1 →
      processStability data t1 t2 = some "stable")
  ∧ (npMean data ≠ 0 → npMax data ≠ npMin data →
      processStability data t1 t2 =
        some (if 100 * Real.sqrt (npVar data) / ((npMean data : ℚ) : ℝ) < (t1 : ℝ)
            then "stable"
          else if 100 * Real.sqrt (npVar data) / ((npMean data : ℚ) : ℝ) < (t2 : ℝ)
            then "moderately_stable"
          else "unstable")) := by
  have hminmax := npMin_le_npMax hne
  have hrange : (0 < npMax data - npMin data) ↔ npMax data ≠ npMin data := by
    constructor
    · intro h0 heq
      rw [heq] at h0
      simp at h0
    · intro hne2
      have : npMin data < npMax data :=
        lt_of_le_of_ne hminmax (fun heq => hne2 heq.symm)
      linarith
  refine ⟨?_, ?_, ?_⟩
  · unfold processStability
    by_cases hr : 0 < npMax data - npMin data
    · rw [if_pos hr]
      exact iff_of_false (by simp) (fun heq => hrange.mp hr heq)
    · rw [if_neg hr]
      have heq : npMax data = npMin data := by
        by_contra hne2
        exact hr (hrange.mpr hne2)
      exact iff_of_true rfl heq
  · intro hmean hne2 ht1
    unfold processStability
    rw [if_pos (hrange.mpr hne2), if_pos hmean, if_pos ht1]
  · intro hmean hne2
    unfold processStability
    rw [if_pos (hrange.mpr hne2), if_neg hmean]
    congr 1
    by_cases hc1 : 100 * Real.sqrt (npVar data) / ((npMean data : ℚ) : ℝ) < (t1 : ℝ)
    · rw [if_pos ((relStdLt_iff _ _ _ hmean).mpr hc1), if_pos hc1]
    · rw [if_neg (fun hb => hc1 ((relStdLt_iff _ _ _ hmean).mp hb)),
        if_neg hc1]
      by_cases hc2 : 100 * Real.sqrt (npVar data) / ((npMean data : ℚ) : ℝ) < (t2 : ℝ)
      · rw [if_pos ((relStdLt_iff _ _ _ hmean).mpr hc2), if_pos hc2]
      · rw [if_neg (fun hb => hc2 ((relStdLt_iff _ _ _ hmean).mp hb)),
          if_neg hc2]

/-- Witness for C9's amended theorem at concrete data. -/
theorem processStability_spec_witness :
    (([1, 2, 3] : List ℚ) ≠ [])
  ∧ (processStability [1, 2, 3] 10 25 = none ↔ npMax [1, 2, 3] = npMin [1, 2, 3]) :=
  ⟨by decide, (processStability_spec [1, 2, 3] 10 25 (by decide)).1⟩

end Oznak
